import Mathlib

/-!
Verification of the playwright-test transform cache
(`packages/playwright-test/src/transform.ts`).

The development shallowly embeds the data model and operations of the
transform module:

* JavaScript string operations (`substring`, `endsWith`, `charAt`,
  `replace(/\W/g, '')`) are modelled over `String.data` (`List Char`) so that
  every definition is executable and kernel-reducible.
* Node's `path` module (posix flavour) is modelled directly:
  `dirname`, `extname`, `basename(p, ext)`, `join`, `resolve`.
  The host path separator is modelled as `/` (posix host).
* The sha1 digest from `crypto` is external to the repository; it is an
  explicit function parameter `digest : String → String`.  What the module
  controls — and what the key-collision claims are about — is the byte
  stream fed to the digest, embedded as `cacheKeyInput`.
* The file system, the `sourceMaps` registry and the tsconfig memo table are
  association lists threaded through the functions; `Map.set` is modelled by
  consing (lookup finds the most recent binding).
* The babel invocation (`babel.transformFileSync`) is an external engine;
  its output `(result.code, result.map)` is an explicit parameter of
  `transformHook`.
* `Error.prepareStackTrace` / `Error.stackTraceLimit` are two fields of an
  explicit `ErrorGlobals` state record; `wrapFunctionWithLocation`'s wrapper
  body is embedded as a state transformer.
-/

/-! ## JavaScript string primitives (modelled over `String.data`) -/

/-- JS `s.substring(0, n)`. -/
def jsSubstringTo (s : String) (n : Nat) : String := ⟨s.data.take n⟩

/-- JS `s.substring(n)`. -/
def jsSubstringFrom (s : String) (n : Nat) : String := ⟨s.data.drop n⟩

/-- JS `s.length`. -/
def jsLen (s : String) : Nat := s.data.length

/-- JS `s.endsWith(t)`. -/
def jsEndsWith (s t : String) : Bool := decide (t.data <:+ s.data)

/-- JS `s[n]` used as a one-character string (`hash[0]`, `hash[1]` in
`calculateCachePath`); out-of-range access is the empty string (the source
only indexes into a 40-character sha1 hex digest). -/
def jsCharAt (s : String) (n : Nat) : String := ⟨(s.data.drop n).take 1⟩

/-- A JS "word" character, the class `\w` = `[A-Za-z0-9_]`. -/
def isWordChar (c : Char) : Bool := c.isAlphanum || c = '_'

/-- JS `s.replace(/\W/g, '')`: delete every character outside `[A-Za-z0-9_]`
(transform.ts line 66). -/
def jsReplaceNonWord (s : String) : String := ⟨s.data.filter isWordChar⟩

/-- JS `s.startsWith(t)`. -/
def jsStartsWith (s t : String) : Bool := decide (s.data.take t.data.length = t.data)

/-! ## Node `path` model (posix host) -/

/-- The host path separator (`path.sep`); the development models a posix
host. -/
def pathSep : Char := '/'

/-- `relative.replace(/\//g, path.sep)` from transform.ts line 97. -/
def toHostSep (s : String) : String :=
  ⟨s.data.map (fun c => if c = '/' then pathSep else c)⟩

/-- Drop trailing separators of a path (Node ignores them in `dirname` and
`basename`). -/
def dropTrailingSlashes (l : List Char) : List Char :=
  (l.reverse.dropWhile (fun c => c = '/')).reverse

/-- Node `path.dirname` (posix). -/
def pathDirname (p : String) : String :=
  let l := dropTrailingSlashes p.data
  if l = [] then (if p.data.head? = some '/' then "/" else ".")
  else
    let pre := dropTrailingSlashes ((l.reverse.dropWhile (fun c => c ≠ '/')).reverse)
    if pre = [] then (if l.head? = some '/' then "/" else ".") else ⟨pre⟩

/-- Node `path.extname` (posix): the last `.`-suffix of the basename, empty
when there is no dot or the only dot is the basename's first character. -/
def pathExtname (p : String) : String :=
  let b := (p.data.reverse.takeWhile (fun c => c ≠ '/')).reverse
  let afterDot := b.reverse.takeWhile (fun c => c ≠ '.')
  if afterDot.length = b.length then ""
  else if afterDot.length + 1 = b.length then ""
  else ⟨'.' :: afterDot.reverse⟩

/-- Node `path.basename(p, ext)` (posix): the final path component, with the
suffix `ext` removed when it is a proper suffix (Node keeps the basename when
it is exactly `ext`). -/
def pathBasename (p : String) (ext : String) : String :=
  let b : String := ⟨((dropTrailingSlashes p.data).reverse.takeWhile (fun c => c ≠ '/')).reverse⟩
  if b ≠ ext ∧ jsEndsWith b ext = true then jsSubstringTo b (jsLen b - jsLen ext) else b

/-- Split a character list at a separator character (structural recursion, so
that it kernel-reduces). -/
def splitOnChar (c : Char) : List Char → List (List Char)
  | [] => [[]]
  | x :: xs =>
    match splitOnChar c xs with
    | [] => [[]]
    | h :: t => if x = c then [] :: h :: t else (x :: h) :: t

/-- Split a path into `/`-separated components. -/
def splitSlash (s : String) : List String :=
  (splitOnChar '/' s.data).map (fun l => ⟨l⟩)

/-- Join strings with a separator. -/
def joinSep (sep : String) : List String → String
  | [] => ""
  | [x] => x
  | x :: y :: xs => x ++ sep ++ joinSep sep (y :: xs)

/-- Normalize path components: drop empty and `.` components, resolve `..`
against the accumulated prefix (clamping at the root, as posix `resolve`
does for absolute paths). -/
def normSegs (acc : List String) : List String → List String
  | [] => acc.reverse
  | s :: rest =>
    if s = "" ∨ s = "." then normSegs acc rest
    else if s = ".." then normSegs acc.tail rest
    else normSegs (s :: acc) rest

/-- Node `path.resolve(base, rel)` (posix) for the absolute bases used by the
module: when `rel` is absolute it wins, otherwise it is appended to `base`;
the result is normalized. -/
def pathResolve (base rel : String) : String :=
  let joined := if jsStartsWith rel "/" then rel else base ++ "/" ++ rel
  let segs := normSegs [] (splitSlash joined)
  if jsStartsWith joined "/" then "/" ++ joinSep "/" segs
  else if segs = [] then "." else joinSep "/" segs

/-- Node `path.join(a, b, c)` for separator-free components `b`, `c` (the
source joins the cache root with a hex shard name and a sanitized file name,
for which `join` is plain separator concatenation). -/
def pathJoin3 (a b c : String) : String := a ++ "/" ++ b ++ "/" ++ c

/-! ## Helper lemmas on the string primitives -/

theorem string_data_append (a b : String) : (a ++ b).data = a.data ++ b.data := rfl

theorem string_eq_of_data {a b : String} (h : a.data = b.data) : a = b := by
  cases a; cases b; exact congrArg String.mk h

theorem jsLen_append (a b : String) : jsLen (a ++ b) = jsLen a + jsLen b := by
  simp [jsLen, string_data_append]

theorem jsEndsWith_append (a b : String) : jsEndsWith (a ++ b) b = true := by
  simp [jsEndsWith, string_data_append]

theorem jsEndsWith_trans {s t u : String} (h1 : jsEndsWith s t = true)
    (h2 : jsEndsWith t u = true) : jsEndsWith s u = true := by
  simp only [jsEndsWith, decide_eq_true_eq] at *
  exact h2.trans h1

theorem jsEndsWith_eq_of_len {s a b : String} (ha : jsEndsWith s a = true)
    (hb : jsEndsWith s b = true) (hl : jsLen a = jsLen b) : a = b := by
  simp only [jsEndsWith, decide_eq_true_eq] at ha hb
  obtain ⟨t1, h1⟩ := ha
  obtain ⟨t2, h2⟩ := hb
  apply string_eq_of_data
  have hlen : t1.length = t2.length := by
    have e1 := congrArg List.length h1
    have e2 := congrArg List.length h2
    simp only [List.length_append] at e1 e2
    simp only [jsLen] at hl
    omega
  exact List.append_inj_right (h1.trans h2.symm) hlen

theorem jsSubstringTo_append (a b : String) :
    jsSubstringTo (a ++ b) (jsLen a) = a := by
  apply string_eq_of_data
  simp [jsSubstringTo, jsLen, string_data_append, List.take_left]

theorem jsSubstringFrom_append (a b : String) :
    jsSubstringFrom (a ++ b) (jsLen a) = b := by
  apply string_eq_of_data
  simp [jsSubstringFrom, jsLen, string_data_append, List.drop_left]

/-! ## Cache key engine (transform.ts lines 27, 58–68) -/

/-- `const version = 6` (transform.ts line 27). -/
def version : Nat := 6

/-- The build-mode component of the digest:
`process.env.PW_EXPERIMENTAL_TS_ESM ? 'esm' : 'no_esm'` (line 61). -/
def buildModeString (esm : Bool) : String := if esm then "esm" else "no_esm"

/-- The exact byte stream fed to the sha1 digest by `calculateCachePath`
(lines 59–65): the five contributing values are concatenated by successive
`hash.update(...)` calls with no separator between them. -/
def cacheKeyInput (tsconfigHash : String) (esm : Bool) (content filePath : String) : String :=
  tsconfigHash ++ buildModeString esm ++ content ++ filePath ++ toString version

/-- The cache key: the digest (externally, sha1-hex from `crypto`) of
`cacheKeyInput`.  The digest is a parameter because `crypto` is outside the
repository; every property proved below holds for the digest as a function
of its input stream. -/
def cacheKey (digest : String → String) (tsconfigHash : String) (esm : Bool)
    (content filePath : String) : String :=
  digest (cacheKeyInput tsconfigHash esm content filePath)

/-! ## Configuration resolver (transform.ts lines 31–37, 70–120) -/

/-- The result shape of the external tsconfig discovery routine
(`tsConfigLoader` from `third_party/tsconfig-loader`): configuration file
path, `baseUrl`, and the `paths` pattern→targets mapping, each possibly
absent.  `none` and `some ""` are both JS-falsy for the two string fields. -/
structure TsConfigLoaderResult where
  tsConfigPath : Option String
  baseUrl : Option String
  paths : Option (List (String × List String))
deriving DecidableEq, Repr

/-- `ParsedTsConfigData` (transform.ts lines 31–36) without the `alias`
closure table: the closures are determined by `absoluteBaseUrl` and
`singlePath` and are embedded separately as `aliasResolve`. -/
structure ParsedTsConfigData where
  absoluteBaseUrl : String
  singlePath : List (String × String)
  hash : String
deriving DecidableEq, Repr

/-- JSON string escaping for the fingerprint model (quote and backslash; the
inputs the module hashes are file-system paths and patterns). -/
def jsonEscapeChar (c : Char) : String :=
  if c = '"' then "\\\"" else if c = '\\' then "\\\\" else String.singleton c

/-- Concatenate a list of strings. -/
def concatAll : List String → String
  | [] => ""
  | x :: xs => x ++ concatAll xs

def jsonEscape (s : String) : String := concatAll (s.data.map jsonEscapeChar)

def jsonStr (s : String) : String := "\"" ++ jsonEscape s ++ "\""

def jsonObj (pairs : List (String × String)) : String :=
  "\x7b" ++ joinSep "," (pairs.map (fun kv => jsonStr kv.1 ++ ":" ++ jsonStr kv.2)) ++ "\x7d"

/-- `JSON.stringify({ absoluteBaseUrl, singlePath })` (transform.ts line 86). -/
def tsconfigFingerprint (absoluteBaseUrl : String) (singlePath : List (String × String)) : String :=
  "\x7b\"absoluteBaseUrl\":" ++ jsonStr absoluteBaseUrl ++ ",\"singlePath\":"
    ++ jsonObj singlePath ++ "\x7d"

/-- The regex `/^[*./\\]+$/` of transform.ts line 76: a non-empty key all of
whose characters are `*`, `.`, `/` or `\`. -/
def isAmbiguousPathKey (key : String) : Bool :=
  key ≠ "" && key.data.all (fun c => c = '*' || c = '.' || c = '/' || c = '\\')

/-- `validateTsConfig` (transform.ts lines 70–108).  Returns `none` when a
field is missing/falsy, when some pattern key matches the ambiguous-key
regex, or when some pattern key maps to more than one target; otherwise
keeps the single target per key, makes `baseUrl` absolute relative to the
tsconfig file's directory, and fingerprints the result. -/
def validateTsConfig (t : TsConfigLoaderResult) : Option ParsedTsConfigData :=
  match t.tsConfigPath, t.paths, t.baseUrl with
  | some tsConfigPath, some paths, some baseUrl =>
    if tsConfigPath = "" ∨ baseUrl = "" then none
    else if paths.any (fun kv => isAmbiguousPathKey kv.1) then none
    else if paths.any (fun kv => kv.2.length > 1) then none
    else
      let singlePath := paths.map (fun kv => (kv.1, kv.2.headD ""))
      let absoluteBaseUrl := pathResolve (pathDirname tsConfigPath) baseUrl
      some ⟨absoluteBaseUrl, singlePath, tsconfigFingerprint absoluteBaseUrl singlePath⟩
  | _, _, _ => none

/-- The alias resolver closure built for one `singlePath` entry
`key ↦ value` (transform.ts lines 91–99), applied to the captured match
`name` (the full import specifier): when the pattern ends in the wildcard
segment `/*`, substitute the captured suffix of the specifier into the
target at the wildcard position, otherwise keep the fixed target; then
rewrite `/` to the host separator and resolve against `absoluteBaseUrl`. -/
def aliasResolve (absoluteBaseUrl key value name : String) : String :=
  let relative :=
    if jsEndsWith key "/*" then
      jsSubstringTo value (jsLen value - 1) ++ jsSubstringFrom name (jsLen key - 1)
    else value
  pathResolve absoluteBaseUrl (toHostSep relative)

/-- `tsconfigData?.hash || ''` (transform.ts line 60). -/
def tsconfigHashOf (tsconfigData : Option ParsedTsConfigData) : String :=
  (tsconfigData.map (fun d => d.hash)).getD ""

/-- `calculateCachePath` (transform.ts lines 58–68): digest the five inputs,
shard by `hash[0] + hash[1]` under the cache root, and name the artifact
after the `\W`-stripped stem of the source file joined to the key with
`_`. -/
def calculateCachePath (digest : String → String) (cacheDir : String)
    (tsconfigData : Option ParsedTsConfigData) (esm : Bool)
    (content filePath : String) : String :=
  let hash := cacheKey digest (tsconfigHashOf tsconfigData) esm content filePath
  let fileName := jsReplaceNonWord (pathBasename filePath (pathExtname filePath)) ++ "_" ++ hash
  pathJoin3 cacheDir (jsCharAt hash 0 ++ jsCharAt hash 1) fileName

/-- Association-list lookup, modelling `Map.get` with cons-as-`set`
semantics (the most recent binding wins). -/
def lookupAssoc {α : Type} (m : List (String × α)) (k : String) : Option α :=
  match m.find? (fun kv => kv.1 == k) with
  | some kv => some kv.2
  | none => none

/-- The result of `loadAndValidateTsconfigForFile`: the parsed data (or its
absence), the updated memo table, and whether discovery ran. -/
structure TsconfigLookupResult where
  cfg : Option ParsedTsConfigData
  cache : List (String × Option ParsedTsConfigData)
  invoked : Bool
deriving Repr

/-- `loadAndValidateTsconfigForFile` (transform.ts lines 110–120): the memo
key is the file's directory; on a memo miss the external discovery routine
`discover` (the `tsConfigLoader` boundary) runs once and the validated
result — including absence — is memoized. -/
def loadAndValidateTsconfigForFile (discover : String → TsConfigLoaderResult)
    (cache : List (String × Option ParsedTsConfigData)) (file : String) :
    TsconfigLookupResult :=
  let cwd := pathDirname file
  match lookupAssoc cache cwd with
  | some v => ⟨v, cache, false⟩
  | none =>
    let v := validateTsConfig (discover cwd)
    ⟨v, (cwd, v) :: cache, true⟩

/-! ## Component stub short-circuit (transform.ts lines 221–235) -/

/-- `isComponentImport` (transform.ts lines 221–229). -/
def isComponentImport (componentTesting : Bool) (filename : String) : Bool :=
  if !componentTesting then false
  else if jsEndsWith filename ".tsx" && !jsEndsWith filename "spec.tsx"
          && !jsEndsWith filename "test.tsx" then true
  else if jsEndsWith filename ".jsx" && !jsEndsWith filename "spec.jsx"
          && !jsEndsWith filename "test.jsx" then true
  else false

/-- `componentStub` (transform.ts lines 231–235). -/
def componentStub : String :=
  "module.exports = new Proxy(\x7b\x7d, \x7b\n    get: (obj, prop) => prop\n  \x7d);"

/-! ## Transform orchestrator (transform.ts lines 122–190) -/

/-- Environment flags and the cache root consulted by `transformHook`:
`PW_COMPONENT_TESTING`, `PW_IGNORE_COMPILE_CACHE`, `PW_EXPERIMENTAL_TS_ESM`,
and `cacheDir` (line 28). -/
structure TransformEnv where
  componentTesting : Bool
  ignoreCompileCache : Bool
  esm : Bool
  cacheDir : String
deriving DecidableEq, Repr

/-- The process-wide mutable state `transformHook` touches: the file system
(path ↦ contents), the `sourceMaps` registry (line 29), and the
`cachedTSConfigs` memo table (line 37). -/
structure TransformState where
  fs : List (String × String)
  registry : List (String × String)
  tsCache : List (String × Option ParsedTsConfigData)
deriving Repr

/-- Observable effects of one `transformHook` call, in order. -/
inductive Effect where
  | configResolve
  | registerMap (file mapPath : String)
  | probeHit (codePath : String)
  | probeMiss
  | babelTransform
  | writeMapFile (p : String)
  | writeCodeFile (p : String)
deriving DecidableEq, Repr

/-- Result of one `transformHook` call. -/
structure HookResult where
  result : String
  state : TransformState
  trace : List Effect
deriving Repr

def effectIsHit : Effect → Bool
  | .probeHit _ => true
  | _ => false

def isHitTrace (tr : List Effect) : Bool := tr.any effectIsHit

/-- `transformHook` (transform.ts lines 122–190).  The babel engine is the
external boundary: `babelOut` is `(result.code, result.map)` of
`babel.transformFileSync` (`result.code` is JS-falsy when `null` or empty,
in which case nothing is persisted and `''` is returned, line 189).  The
plugin list assembly (lines 136–167) and the `BROWSERSLIST` variable (line
135) configure that external engine and have no further observable effect
in this model. -/
def transformHook (digest : String → String) (env : TransformEnv)
    (discover : String → TsConfigLoaderResult)
    (babelOut : Option String × Option String)
    (st : TransformState) (code filename : String) (isModule : Bool) : HookResult :=
  if isComponentImport env.componentTesting filename then
    ⟨componentStub, st, []⟩
  else
    let L := loadAndValidateTsconfigForFile discover st.tsCache filename
    let cachePath := calculateCachePath digest env.cacheDir L.cfg env.esm code filename
    let codePath := cachePath ++ ".js"
    let mapPath := cachePath ++ ".map"
    let registry' := (filename, mapPath) :: st.registry
    if !env.ignoreCompileCache && (lookupAssoc st.fs codePath).isSome then
      ⟨(lookupAssoc st.fs codePath).getD "",
       ⟨st.fs, registry', L.cache⟩,
       [.configResolve, .registerMap filename mapPath, .probeHit codePath]⟩
    else
      let bcode := babelOut.1.getD ""
      if bcode = "" then
        ⟨"", ⟨st.fs, registry', L.cache⟩,
         [.configResolve, .registerMap filename mapPath, .probeMiss, .babelTransform]⟩
      else
        let fs1 := match babelOut.2 with
          | some m => (mapPath, m) :: st.fs
          | none => st.fs
        ⟨bcode, ⟨(codePath, bcode) :: fs1, registry', L.cache⟩,
         [.configResolve, .registerMap filename mapPath, .probeMiss, .babelTransform]
           ++ (match babelOut.2 with | some _ => [.writeMapFile mapPath] | none => [])
           ++ [.writeCodeFile codePath]⟩

/-! ## Location capture protocol (transform.ts lines 39–40, 196–218) -/

/-- A value of the global `Error.prepareStackTrace` hook: the default
formatter, the location-capture closure installed by
`wrapFunctionWithLocation` (lines 199–209), or any other formatter installed
by foreign code. -/
inductive StackFormatter where
  | default
  | locationCapture
  | other (id : Nat)
deriving DecidableEq, Repr

/-- The process-wide error-formatting globals `Error.prepareStackTrace` and
`Error.stackTraceLimit`. -/
structure ErrorGlobals where
  prepareStackTrace : StackFormatter
  stackTraceLimit : Nat
deriving DecidableEq, Repr

/-- `const kStackTraceLimit = 15` (transform.ts line 39). -/
def kStackTraceLimit : Nat := 15

/-- Module-load side effect `Error.stackTraceLimit = kStackTraceLimit`
(transform.ts line 40). -/
def moduleLoadGlobals (g : ErrorGlobals) : ErrorGlobals :=
  { g with stackTraceLimit := kStackTraceLimit }

/-- The globals as they stand when `Error.captureStackTrace` runs inside the
wrapper (after lines 199 and 210). -/
def captureGlobals (g : ErrorGlobals) : ErrorGlobals :=
  { g with prepareStackTrace := .locationCapture, stackTraceLimit := 2 }

/-- The globals at the moment the wrapped `func` is invoked (line 216),
i.e. after the wrapper body of `wrapFunctionWithLocation` (lines 197–215)
has run: install the capture formatter (199), set the limit to 2 (210),
capture (212), set the limit to `kStackTraceLimit` (214), restore the saved
formatter (215). -/
def wrapInvokeState (g : ErrorGlobals) : ErrorGlobals :=
  let oldPrepareStackTrace := g.prepareStackTrace
  let g1 := { g with prepareStackTrace := StackFormatter.locationCapture }
  let g2 := { g1 with stackTraceLimit := 2 }
  let g3 := { g2 with stackTraceLimit := kStackTraceLimit }
  { g3 with prepareStackTrace := oldPrepareStackTrace }

/-- Calling the function returned by `wrapFunctionWithLocation`: the global
mutations of lines 198–215 happen first, then `func` runs in (and may
further mutate) that state; its normal or exceptional outcome propagates
unchanged. -/
def wrappedCall {ρ : Type} (fn : ErrorGlobals → ErrorGlobals × Except Unit ρ)
    (g : ErrorGlobals) : ErrorGlobals × Except Unit ρ :=
  fn (wrapInvokeState g)

/-! ## Claim theorems -/

/-- Helper: for a key of length at least 2, the two single-character strings
`hash[0]` and `hash[1]` concatenate to the key's first two characters. -/
theorem jsCharAt_zero_one (s : String) (h : 2 ≤ jsLen s) :
    jsCharAt s 0 ++ jsCharAt s 1 = jsSubstringTo s 2 := by
  rcases s with ⟨l⟩
  match l with
  | [] => simp [jsLen] at h
  | [a] => simp [jsLen] at h
  | a :: b :: t => rfl

/-- Claim C1, counterexample.  The digest input stream concatenates the five
contributing values with no separator (`hash.update(...)` chains), so the two
distinct component tuples `(fingerprint "", no-esm, content "ab", path "c")`
and `(fingerprint "", no-esm, content "a", path "bc")` feed the digest the
identical stream `"no_esmabc6"`; the cache key is a function of that stream,
so the two tuples receive the same key, contradicting the claim that inputs
whose components differ but whose unseparated concatenation is identical
must still yield distinct keys. -/
theorem c1_counterexample :
    cacheKeyInput "" false "ab" "c" = cacheKeyInput "" false "a" "bc"
    ∧ cacheKey id "" false "ab" "c" = cacheKey id "" false "a" "bc"
    ∧ ¬ ("ab" = "a" ∧ "c" = "bc") := by decide

/-- Claim C1, amended: for any injective digest, two inputs produce equal
cache keys iff their unseparated concatenations
`fingerprint ∥ build-mode ∥ content ∥ path ∥ version` are equal — equality of
all five components is sufficient but not necessary. -/
theorem c1_key_eq_iff_input_eq (digest : String → String)
    (hinj : Function.Injective digest)
    (h1 : String) (e1 : Bool) (ct1 p1 : String)
    (h2 : String) (e2 : Bool) (ct2 p2 : String) :
    cacheKey digest h1 e1 ct1 p1 = cacheKey digest h2 e2 ct2 p2
      ↔ cacheKeyInput h1 e1 ct1 p1 = cacheKeyInput h2 e2 ct2 p2 :=
  ⟨fun h => hinj h, fun h => congrArg digest h⟩

theorem c1_key_eq_iff_input_eq_witness :
    cacheKey id "" false "ab" "c" = cacheKey id "" false "a" "bc" :=
  (c1_key_eq_iff_input_eq id (fun _ _ h => h) "" false "ab" "c" "" false "a" "bc").mpr
    (by decide)

/-- Claim C2, counterexample.  With a prior stack-depth limit of 100, the
wrapper of `wrapFunctionWithLocation` hands control to `fn` with
`Error.stackTraceLimit = kStackTraceLimit = 15` (line 214 assigns the
constant, not the saved value), so the previous stack-depth limit is not
restored. -/
theorem c2_counterexample :
    ¬ (wrapInvokeState ⟨StackFormatter.other 7, 100⟩).stackTraceLimit = 100 := by decide

/-- Claim C2, amended: for every function `fn` and every prior state of the
global error-formatter and stack-depth limit, the wrapper returned by
`wrapFunctionWithLocation` restores the previous formatter and sets the
stack-depth limit to the constant `kStackTraceLimit` (not the prior value)
before `fn` is invoked — so the restoration happens on all exit paths,
including when `fn` throws, and the ordering is capture → restore globals →
invoke `fn`. -/
theorem c2_restore_before_invoke {ρ : Type} (g : ErrorGlobals)
    (fn : ErrorGlobals → ErrorGlobals × Except Unit ρ) :
    wrappedCall fn g = fn (wrapInvokeState g)
    ∧ (wrapInvokeState g).prepareStackTrace = g.prepareStackTrace
    ∧ (wrapInvokeState g).stackTraceLimit = kStackTraceLimit :=
  ⟨rfl, rfl, rfl⟩

/-- Claim C10: loading the transform module sets `Error.stackTraceLimit` to
the constant 15 regardless of its previous value (line 40), and a call to a
wrapped function that does not itself touch the globals leaves
`Error.stackTraceLimit` at that constant 15 — not at whatever value it held
before the call. -/
theorem c10_stack_trace_limit_constant (g : ErrorGlobals) :
    (moduleLoadGlobals g).stackTraceLimit = 15
    ∧ (wrappedCall (fun s => (s, Except.ok ())) g).1.stackTraceLimit = 15
    ∧ (g.stackTraceLimit ≠ 15 →
        (wrappedCall (fun s => (s, Except.ok ())) g).1.stackTraceLimit ≠ g.stackTraceLimit) :=
  ⟨rfl, rfl, fun h => by simpa [wrappedCall, wrapInvokeState, kStackTraceLimit] using (Ne.symm h)⟩

theorem c10_stack_trace_limit_constant_witness :
    (wrappedCall (fun s => (s, Except.ok ())) ⟨StackFormatter.default, 100⟩).1.stackTraceLimit
      ≠ (⟨StackFormatter.default, 100⟩ : ErrorGlobals).stackTraceLimit :=
  (c10_stack_trace_limit_constant ⟨StackFormatter.default, 100⟩).2.2 (by decide)

/-- The artifact path as claim C8 words it: a two-level directory shard (the
key's first two characters as two separate path segments) below the cache
root, and the stem stripped of every non-alphanumeric character (including
the underscore).  Spec-side definition, for comparison with
`calculateCachePath`. -/
def c8ClaimedPath (digest : String → String) (cacheDir : String)
    (tsconfigData : Option ParsedTsConfigData) (esm : Bool)
    (content filePath : String) : String :=
  let hash := cacheKey digest (tsconfigHashOf tsconfigData) esm content filePath
  let stem := pathBasename filePath (pathExtname filePath)
  cacheDir ++ "/" ++ jsCharAt hash 0 ++ "/" ++ jsCharAt hash 1 ++ "/"
    ++ (⟨stem.data.filter (fun c => c.isAlphanum)⟩ ++ "_" ++ hash)

/-- Claim C8, counterexample.  For the key `"ab"` and source file
`/d/my_file.ts`, the code produces `/cache/ab/my_file_ab` — a single shard
directory named by the first two key characters, with the underscore of the
stem preserved (`\W` keeps `_`) — while the claim's layout would be
`/cache/a/b/myfile_ab` (two shard levels, underscore stripped). -/
theorem c8_counterexample :
    calculateCachePath (fun _ => "ab") "/cache" none false "x" "/d/my_file.ts"
      ≠ c8ClaimedPath (fun _ => "ab") "/cache" none false "x" "/d/my_file.ts" := by decide

/-- Claim C8, amended: the two artifact files live under a single shard
directory whose name is the key's first two characters (one path segment)
beneath the cache root, and the artifact base filename is the original
filename's stem with every character outside `[A-Za-z0-9_]` stripped (the
underscore, though not alphanumeric, is kept), concatenated with `_` and the
key. -/
theorem c8_artifact_path_layout (digest : String → String) (cacheDir : String)
    (tsconfigData : Option ParsedTsConfigData) (esm : Bool) (content filePath : String)
    (h2 : 2 ≤ jsLen (cacheKey digest (tsconfigHashOf tsconfigData) esm content filePath)) :
    calculateCachePath digest cacheDir tsconfigData esm content filePath
      = cacheDir ++ "/"
        ++ jsSubstringTo (cacheKey digest (tsconfigHashOf tsconfigData) esm content filePath) 2
        ++ "/"
        ++ (⟨(pathBasename filePath (pathExtname filePath)).data.filter
              (fun c => c.isAlphanum || c = '_')⟩
            ++ "_" ++ cacheKey digest (tsconfigHashOf tsconfigData) esm content filePath) := by
  simp only [calculateCachePath, pathJoin3]
  rw [jsCharAt_zero_one _ h2]
  rfl

theorem c8_artifact_path_layout_witness :
    calculateCachePath (fun _ => "ab") "/cache" none false "x" "/d/my_file.ts"
      = "/cache" ++ "/"
        ++ jsSubstringTo (cacheKey (fun _ => "ab") (tsconfigHashOf none) false "x" "/d/my_file.ts") 2
        ++ "/"
        ++ (⟨(pathBasename "/d/my_file.ts" (pathExtname "/d/my_file.ts")).data.filter
              (fun c => c.isAlphanum || c = '_')⟩
            ++ "_" ++ cacheKey (fun _ => "ab") (tsconfigHashOf none) false "x" "/d/my_file.ts") :=
  c8_artifact_path_layout (fun _ => "ab") "/cache" none false "x" "/d/my_file.ts" (by decide)

theorem lookupAssoc_cons_self {α : Type} (m : List (String × α)) (k : String) (v : α) :
    lookupAssoc ((k, v) :: m) k = some v := by
  simp [lookupAssoc, List.find?]

/-- Claim C9: per-directory memoization of configuration discovery.  A first
query whose directory is not yet memoized invokes discovery; after it, a
second query for any file in the same directory returns the memoized value —
including memoized absence — without invoking discovery, and leaves the memo
table unchanged. -/
theorem c9_tsconfig_memoization (discover : String → TsConfigLoaderResult)
    (cache : List (String × Option ParsedTsConfigData)) (file1 file2 : String)
    (hdir : pathDirname file1 = pathDirname file2) :
    (lookupAssoc cache (pathDirname file1) = none →
      (loadAndValidateTsconfigForFile discover cache file1).invoked = true)
    ∧ (loadAndValidateTsconfigForFile discover
         (loadAndValidateTsconfigForFile discover cache file1).cache file2).cfg
        = (loadAndValidateTsconfigForFile discover cache file1).cfg
    ∧ (loadAndValidateTsconfigForFile discover
         (loadAndValidateTsconfigForFile discover cache file1).cache file2).cache
        = (loadAndValidateTsconfigForFile discover cache file1).cache
    ∧ (loadAndValidateTsconfigForFile discover
         (loadAndValidateTsconfigForFile discover cache file1).cache file2).invoked = false := by
  unfold loadAndValidateTsconfigForFile
  rw [← hdir]
  cases h : lookupAssoc cache (pathDirname file1) with
  | some v => simp [h]
  | none => simp [h, lookupAssoc_cons_self]

theorem c9_tsconfig_memoization_witness :
    (loadAndValidateTsconfigForFile (fun _ => ⟨none, none, none⟩)
       (loadAndValidateTsconfigForFile (fun _ => ⟨none, none, none⟩) [] "/a/x.ts").cache
       "/a/y.ts").invoked = false :=
  (c9_tsconfig_memoization (fun _ => ⟨none, none, none⟩) [] "/a/x.ts" "/a/y.ts"
    (by decide)).2.2.2

/-- Claim C5: a configuration whose `paths` contains a pattern key made only
of wildcard/`.`/`/`/`\` characters, or a pattern key mapped to more than one
candidate target, is rejected wholesale (`validateTsConfig` returns `none`,
never a partially filtered configuration), and `transformHook` for files in
that directory behaves exactly as if discovery had found no configuration at
all. -/
theorem c5_invalid_config_rejected (t : TsConfigLoaderResult)
    (ps : List (String × List String)) (hps : t.paths = some ps)
    (hbad : ps.any (fun kv => isAmbiguousPathKey kv.1) = true
          ∨ ps.any (fun kv => kv.2.length > 1) = true) :
    validateTsConfig t = none
    ∧ ∀ (digest : String → String) (env : TransformEnv)
        (babelOut : Option String × Option String)
        (fs registry : List (String × String)) (code filename : String) (isModule : Bool),
        transformHook digest env (fun _ => t) babelOut ⟨fs, registry, []⟩ code filename isModule
          = transformHook digest env (fun _ => TsConfigLoaderResult.mk none none none)
              babelOut ⟨fs, registry, []⟩ code filename isModule := by
  have hnone : validateTsConfig t = none := by
    obtain ⟨tcp, bu, pth⟩ := t
    cases hps
    cases tcp with
    | none => rfl
    | some tcp =>
      cases bu with
      | none => rfl
      | some bu =>
        unfold validateTsConfig
        rcases hbad with h | h <;> simp [h]
  refine ⟨hnone, ?_⟩
  intro digest env babelOut fs registry code filename isModule
  have e1 : loadAndValidateTsconfigForFile (fun _ => t)
      (⟨fs, registry, []⟩ : TransformState).tsCache filename
      = ⟨none, [(pathDirname filename, none)], true⟩ := by
    unfold loadAndValidateTsconfigForFile
    simp [lookupAssoc, hnone]
  have e2 : loadAndValidateTsconfigForFile (fun _ => TsConfigLoaderResult.mk none none none)
      (⟨fs, registry, []⟩ : TransformState).tsCache filename
      = ⟨none, [(pathDirname filename, none)], true⟩ := by
    unfold loadAndValidateTsconfigForFile
    simp [lookupAssoc]
    rfl
  unfold transformHook
  rw [e1, e2]

theorem c5_invalid_config_rejected_witness :
    validateTsConfig ⟨some "/p/tsconfig.json", some "/p", some [("*", ["x"])]⟩ = none :=
  (c5_invalid_config_rejected ⟨some "/p/tsconfig.json", some "/p", some [("*", ["x"])]⟩
    [("*", ["x"])] rfl (Or.inl (by decide))).1

/-- Claim C6: alias resolver semantics.  Concretely, pattern `lib/*` mapped
to `./src/lib/*`, applied to specifier `lib/foo` over absolute base `/base`,
yields `/base/src/lib/foo`; generally, a pattern ending in the trailing
wildcard segment substitutes the captured suffix of the specifier into the
target at the wildcard position and resolves against the absolute base
directory with host separators, while a pattern without the trailing
wildcard segment resolves to the fixed target regardless of the captured
specifier. -/
theorem c6_alias_resolution :
    aliasResolve "/base" "lib/*" "./src/lib/*" "lib/foo" = "/base/src/lib/foo"
    ∧ (∀ base k w s : String,
        aliasResolve base (k ++ "/*") (w ++ "*") (k ++ "/" ++ s)
          = pathResolve base (toHostSep (w ++ s)))
    ∧ (∀ base key value name name2 : String, jsEndsWith key "/*" = false →
        aliasResolve base key value name = aliasResolve base key value name2
        ∧ aliasResolve base key value name = pathResolve base (toHostSep value)) := by
  refine ⟨by decide, ?_, ?_⟩
  · intro base k w s
    have h1 : jsEndsWith (k ++ "/*") "/*" = true := jsEndsWith_append k "/*"
    have h2 : jsSubstringTo (w ++ "*") (jsLen (w ++ "*") - 1) = w := by
      have e : jsLen (w ++ "*") - 1 = jsLen w := by
        rw [jsLen_append]
        have e1 : jsLen "*" = 1 := rfl
        omega
      rw [e]
      exact jsSubstringTo_append w "*"
    have h3 : jsSubstringFrom (k ++ "/" ++ s) (jsLen (k ++ "/*") - 1) = s := by
      have e : jsLen (k ++ "/*") - 1 = jsLen (k ++ "/") := by
        rw [jsLen_append, jsLen_append]
        have e1 : jsLen "/*" = 2 := rfl
        have e2 : jsLen "/" = 1 := rfl
        omega
      rw [e]
      exact jsSubstringFrom_append (k ++ "/") s
    simp [aliasResolve, h1, h2, h3]
  · intro base key value name name2 hk
    constructor <;> simp [aliasResolve, hk]

theorem c6_alias_resolution_witness :
    aliasResolve "/b" "fixed" "./t" "x" = aliasResolve "/b" "fixed" "./t" "y" :=
  (c6_alias_resolution.2.2 "/b" "fixed" "./t" "x" "y" (by decide)).1

/-- Helper: a filename ending in `spec.tsx` or `test.tsx` is never treated
as a component import. -/
theorem isComponentImport_false_of_test_suffix (ct : Bool) (f : String)
    (h : jsEndsWith f "spec.tsx" = true ∨ jsEndsWith f "test.tsx" = true) :
    isComponentImport ct f = false := by
  have htsx : jsEndsWith f ".tsx" = true := by
    cases h with
    | inl h => exact jsEndsWith_trans h (by decide)
    | inr h => exact jsEndsWith_trans h (by decide)
  have hjsx : jsEndsWith f ".jsx" = false := by
    cases hj : jsEndsWith f ".jsx" with
    | false => rfl
    | true =>
      have e : (".tsx" : String) = ".jsx" := jsEndsWith_eq_of_len htsx hj (by decide)
      exact absurd e (by decide)
  unfold isComponentImport
  cases ct with
  | false => rfl
  | true =>
    cases h with
    | inl h => simp [htsx, hjsx, h]
    | inr h => simp [htsx, hjsx, h]

/-- Helper: a `.tsx`/`.jsx` filename not marked `spec`/`test` is treated as
a component entry file when component-testing mode is on. -/
theorem isComponentImport_true_of_component (f : String)
    (h : (jsEndsWith f ".tsx" = true ∧ jsEndsWith f "spec.tsx" = false
            ∧ jsEndsWith f "test.tsx" = false)
       ∨ (jsEndsWith f ".jsx" = true ∧ jsEndsWith f "spec.jsx" = false
            ∧ jsEndsWith f "test.jsx" = false)) :
    isComponentImport true f = true := by
  unfold isComponentImport
  rcases h with ⟨h1, h2, h3⟩ | ⟨h1, h2, h3⟩
  · simp [h1, h2, h3]
  · simp [h1, h2, h3]

/-- Claim C4: in component-testing mode, `transformHook` on a `.tsx`/`.jsx`
file that is not a `spec`/`test` file short-circuits to the fixed proxy-stub
code with no effects at all — no configuration resolution, no cache-key
computation, no file-system access, and no state change — whereas on a file
ending in `spec.tsx` or `test.tsx` it enters the normal
transform-and-cache path (the trace opens with the configuration
resolution). -/
theorem c4_component_stub_short_circuit (digest : String → String) (env : TransformEnv)
    (discover : String → TsConfigLoaderResult) (babelOut : Option String × Option String)
    (st : TransformState) (code f g : String) (isModule : Bool)
    (hct : env.componentTesting = true)
    (hf : (jsEndsWith f ".tsx" = true ∧ jsEndsWith f "spec.tsx" = false
             ∧ jsEndsWith f "test.tsx" = false)
        ∨ (jsEndsWith f ".jsx" = true ∧ jsEndsWith f "spec.jsx" = false
             ∧ jsEndsWith f "test.jsx" = false))
    (hg : jsEndsWith g "spec.tsx" = true ∨ jsEndsWith g "test.tsx" = true) :
    transformHook digest env discover babelOut st code f isModule
        = ⟨componentStub, st, []⟩
    ∧ (transformHook digest env discover babelOut st code g isModule).trace.head?
        = some Effect.configResolve := by
  constructor
  · have hc : isComponentImport env.componentTesting f = true := by
      rw [hct]; exact isComponentImport_true_of_component f hf
    simp [transformHook, hc]
  · have hc : isComponentImport env.componentTesting g = false :=
      isComponentImport_false_of_test_suffix env.componentTesting g hg
    simp only [transformHook, hc, Bool.false_eq_true, if_false]
    split
    · rfl
    · split
      · rfl
      · simp

theorem c4_component_stub_short_circuit_witness :
    transformHook (fun _ => "ab") ⟨true, false, false, "/cache"⟩
        (fun _ => ⟨none, none, none⟩) (some "B", none)
        ⟨[], [], []⟩ "c" "/a/Comp.tsx" false
      = ⟨componentStub, ⟨[], [], []⟩, []⟩ :=
  (c4_component_stub_short_circuit (fun _ => "ab") ⟨true, false, false, "/cache"⟩
    (fun _ => ⟨none, none, none⟩) (some "B", none) ⟨[], [], []⟩
    "c" "/a/Comp.tsx" "/a/Comp.spec.tsx" false
    (by decide) (Or.inl (by decide)) (Or.inl (by decide))).1

/-- Claim C3, counterexample.  With the ignore-cache override inactive, a
file system holding the code artifact `/cache/ab/f_ab.js` but *not* the map
artifact `/cache/ab/f_ab.map`, the probe nevertheless reports a hit and
returns the stored code: the read consults only the code file, so the
absence of the map file does not produce the miss the claim requires. -/
theorem c3_counterexample :
    (lookupAssoc ([("/cache/ab/f_ab.js", "CACHED")] : List (String × String))
        "/cache/ab/f_ab.map").isSome = false
    ∧ isHitTrace (transformHook (fun _ => "ab") ⟨false, false, false, "/cache"⟩
        (fun _ => ⟨none, none, none⟩) (some "B", some "M")
        ⟨[("/cache/ab/f_ab.js", "CACHED")], [], []⟩ "x" "/d/f.ts" false).trace = true
    ∧ (transformHook (fun _ => "ab") ⟨false, false, false, "/cache"⟩
        (fun _ => ⟨none, none, none⟩) (some "B", some "M")
        ⟨[("/cache/ab/f_ab.js", "CACHED")], [], []⟩ "x" "/d/f.ts" false).result
        = "CACHED" := by decide

/-- Claim C3, amended: for every cache key, the probe reports a miss exactly
when the global ignore-cache override is active or the code artifact file is
absent; the map artifact file is not consulted, so a hit is returned
whenever the override is inactive and the code file is present, even if the
map file is missing. -/
theorem c3_cache_probe (digest : String → String) (env : TransformEnv)
    (discover : String → TsConfigLoaderResult) (babelOut : Option String × Option String)
    (st : TransformState) (code filename : String) (isModule : Bool)
    (hcomp : isComponentImport env.componentTesting filename = false) :
    isHitTrace (transformHook digest env discover babelOut st code filename isModule).trace
      = (!env.ignoreCompileCache
          && (lookupAssoc st.fs
                (calculateCachePath digest env.cacheDir
                  (loadAndValidateTsconfigForFile discover st.tsCache filename).cfg
                  env.esm code filename ++ ".js")).isSome) := by
  obtain ⟨bc, bm⟩ := babelOut
  simp only [transformHook, hcomp, Bool.false_eq_true, if_false]
  split
  case isTrue h => simp [isHitTrace, effectIsHit, h]
  case isFalse h =>
    have hf : (!env.ignoreCompileCache
        && (lookupAssoc st.fs
              (calculateCachePath digest env.cacheDir
                (loadAndValidateTsconfigForFile discover st.tsCache filename).cfg
                env.esm code filename ++ ".js")).isSome) = false := Bool.eq_false_iff.mpr h
    rw [hf]
    split
    · simp [isHitTrace, effectIsHit]
    · cases bm <;> simp [isHitTrace, effectIsHit]

theorem c3_cache_probe_witness :
    isHitTrace (transformHook (fun _ => "ab") ⟨false, false, false, "/cache"⟩
        (fun _ => ⟨none, none, none⟩) (some "B", some "M")
        ⟨[("/cache/ab/f_ab.js", "CACHED")], [], []⟩ "x" "/d/f.ts" false).trace = true := by
  have h := c3_cache_probe (fun _ => "ab") ⟨false, false, false, "/cache"⟩
    (fun _ => ⟨none, none, none⟩) (some "B", some "M")
    ⟨[("/cache/ab/f_ab.js", "CACHED")], [], []⟩ "x" "/d/f.ts" false (by decide)
  rw [h]
  decide

/-- Claim C7: on every `transformHook` call that is not short-circuited by
the component-stub check, the mapping `filePath → mapArtifactPath` is
registered in the `sourceMaps` registry, and in the effect trace the
registration (index 1, right after configuration resolution) precedes the
cache probe (index 2) — so the registry holds the entry after the call on a
cache hit exactly as on a miss. -/
theorem c7_register_before_probe (digest : String → String) (env : TransformEnv)
    (discover : String → TsConfigLoaderResult) (babelOut : Option String × Option String)
    (st : TransformState) (code filename : String) (isModule : Bool)
    (hcomp : isComponentImport env.componentTesting filename = false) :
    lookupAssoc (transformHook digest env discover babelOut st code filename isModule).state.registry
        filename
      = some (calculateCachePath digest env.cacheDir
          (loadAndValidateTsconfigForFile discover st.tsCache filename).cfg
          env.esm code filename ++ ".map")
    ∧ ((transformHook digest env discover babelOut st code filename isModule).trace)[1]?
      = some (Effect.registerMap filename
          (calculateCachePath digest env.cacheDir
            (loadAndValidateTsconfigForFile discover st.tsCache filename).cfg
            env.esm code filename ++ ".map"))
    ∧ (((transformHook digest env discover babelOut st code filename isModule).trace)[2]?
        = some (Effect.probeHit (calculateCachePath digest env.cacheDir
            (loadAndValidateTsconfigForFile discover st.tsCache filename).cfg
            env.esm code filename ++ ".js"))
      ∨ ((transformHook digest env discover babelOut st code filename isModule).trace)[2]?
        = some Effect.probeMiss) := by
  obtain ⟨bc, bm⟩ := babelOut
  simp only [transformHook, hcomp, Bool.false_eq_true, if_false]
  split
  case isTrue h => simp [lookupAssoc_cons_self]
  case isFalse h =>
    split
    · simp [lookupAssoc_cons_self]
    · cases bm <;> simp [lookupAssoc_cons_self]

theorem c7_register_before_probe_witness :
    lookupAssoc (transformHook (fun _ => "ab") ⟨false, false, false, "/cache"⟩
        (fun _ => ⟨none, none, none⟩) (some "B", some "M")
        ⟨[], [], []⟩ "x" "/d/f.ts" false).state.registry "/d/f.ts"
      = some (calculateCachePath (fun _ => "ab") "/cache"
          (loadAndValidateTsconfigForFile (fun _ => ⟨none, none, none⟩) [] "/d/f.ts").cfg
          false "x" "/d/f.ts" ++ ".map") :=
  (c7_register_before_probe (fun _ => "ab") ⟨false, false, false, "/cache"⟩
    (fun _ => ⟨none, none, none⟩) (some "B", some "M")
    ⟨[], [], []⟩ "x" "/d/f.ts" false (by decide)).1
